import Mathlib

/-!
# Verification of the twoapi protocol-translation core

This file gives a shallow embedding of the cross-protocol message translator
of the `twoapi` Cloudflare worker: the JSON value model used by the stream
pipeline, the stream reframer (`processStreamData` / `processStreamLine`),
the stream-chunk adapters (`streamChunkToStandardFormat` /
`streamChunkFromStandardFormat` / `convertStreamChunk`), and typed models of
the request adapters (`toStandardFormat` / `fromStandardFormat`, with
`removeCacheControlFromMessages` / `addCacheControlToMessages` /
`isClaudeModel`) and the response adapters (`responseToStandardFormat` /
`responseFromStandardFormat`).

Modelling conventions:
* JavaScript's dynamically typed stream-chunk values are embedded as a `Json`
  inductive; property access, optional chaining, truthiness (`||` defaults)
  and thrown `TypeError`s (caught by the reframer's lenient fallback) are
  modelled by the `jsGet*` / `jsOr` / `jsTruthy` helpers, with `Except Unit`
  as the exception monad.
* `JSON.parse` / `JSON.stringify` are modelled by `parseJson` /
  `serializeJson`.  Numbers are modelled as integers (the only numeric values
  the translated protocols use in the modelled fields); `\uXXXX` escapes are
  not modelled (such payloads simply fail to parse).
* Byte streams are modelled after text decoding, as lists of characters; the
  clock reads (`Date.now()`) are modelled by an explicit `now` parameter.
-/

/-- A JSON document, the value space of the dynamically typed stream pipeline.
Numbers are modelled as integers. -/
inductive Json where
  | null : Json
  | bool (b : Bool) : Json
  | num (n : Int) : Json
  | str (s : String) : Json
  | arr (elems : List Json) : Json
  | obj (fields : List (String × Json)) : Json

mutual

/-- Structural boolean equality on JSON values. -/
def Json.beq : Json → Json → Bool
  | .null, .null => true
  | .bool a, .bool b => a == b
  | .num a, .num b => a == b
  | .str a, .str b => a == b
  | .arr a, .arr b => Json.beqList a b
  | .obj a, .obj b => Json.beqFields a b
  | _, _ => false

/-- Structural boolean equality on JSON arrays. -/
def Json.beqList : List Json → List Json → Bool
  | [], [] => true
  | x :: xs, y :: ys => Json.beq x y && Json.beqList xs ys
  | _, _ => false

/-- Structural boolean equality on JSON object field lists. -/
def Json.beqFields : List (String × Json) → List (String × Json) → Bool
  | [], [] => true
  | (k1, v1) :: xs, (k2, v2) :: ys => k1 == k2 && Json.beq v1 v2 && Json.beqFields xs ys
  | _, _ => false

end

mutual

theorem Json.beq_iff : ∀ a b : Json, Json.beq a b = true ↔ a = b
  | .null, b => by cases b <;> simp [Json.beq]
  | .bool a, b => by cases b <;> simp [Json.beq]
  | .num a, b => by cases b <;> simp [Json.beq]
  | .str a, b => by cases b <;> simp [Json.beq]
  | .arr a, b => by
      cases b <;> simp [Json.beq]
      exact Json.beqList_iff a _
  | .obj a, b => by
      cases b <;> simp [Json.beq]
      exact Json.beqFields_iff a _

theorem Json.beqList_iff : ∀ a b : List Json, Json.beqList a b = true ↔ a = b
  | [], b => by cases b <;> simp [Json.beqList]
  | x :: xs, b => by
      cases b <;> simp [Json.beqList]
      rw [Json.beq_iff, Json.beqList_iff]

theorem Json.beqFields_iff : ∀ a b : List (String × Json), Json.beqFields a b = true ↔ a = b
  | [], b => by cases b <;> simp [Json.beqFields]
  | (k, v) :: xs, b => by
      cases b with
      | nil => simp [Json.beqFields]
      | cons y ys =>
        obtain ⟨k2, v2⟩ := y
        simp [Json.beqFields]
        rw [Json.beq_iff, Json.beqFields_iff]

end

instance : DecidableEq Json := fun a b => decidable_of_iff (Json.beq a b = true) (Json.beq_iff a b)

/-- JavaScript truthiness of a JSON value (`null`, `false`, `0` and `""` are
falsy; arrays and objects are always truthy). -/
def jsTruthy : Json → Bool
  | .null => false
  | .bool b => b
  | .num n => n ≠ 0
  | .str s => s ≠ ""
  | .arr _ => true
  | .obj _ => true

/-- Truthiness of a possibly-`undefined` value (`undefined` is falsy). -/
def jsTruthyOpt : Option Json → Bool
  | none => false
  | some v => jsTruthy v

/-- First binding of a key in a JSON object's field list. -/
def lookupField : List (String × Json) → String → Option Json
  | [], _ => none
  | (k, v) :: rest, key => if k = key then some v else lookupField rest key

/-- Plain JavaScript property access `v.key`: throws a `TypeError` on `null`,
looks the key up on an object, and yields `undefined` on other values. -/
def jsGetThrow (v : Json) (key : String) : Except Unit (Option Json) :=
  match v with
  | .null => .error ()
  | .obj fields => .ok (lookupField fields key)
  | _ => .ok none

/-- Optional-chaining access `v?.key`: `undefined` and `null` short-circuit to
`undefined`; other non-objects yield `undefined`. -/
def jsGetOpt (v : Option Json) (key : String) : Option Json :=
  match v with
  | none => none
  | some .null => none
  | some (.obj fields) => lookupField fields key
  | some _ => none

/-- Optional-chaining index access `v?.[0]`. -/
def jsIdx0Opt (v : Option Json) : Option Json :=
  match v with
  | none => none
  | some .null => none
  | some (.arr elems) => elems.head?
  | some (.obj fields) => lookupField fields "0"
  | some _ => none

/-- Plain index access `v[0]` on a possibly-`undefined` value: throws on
`undefined` and `null`. -/
def jsIdx0Throw (v : Option Json) : Except Unit (Option Json) :=
  match v with
  | none => .error ()
  | some .null => .error ()
  | some (.arr elems) => .ok elems.head?
  | some (.obj fields) => .ok (lookupField fields "0")
  | some _ => .ok none

/-- The JavaScript `x || d` default idiom on a possibly-`undefined` value. -/
def jsOr (v : Option Json) (d : Json) : Json :=
  match v with
  | none => d
  | some x => if jsTruthy x then x else d

/-- ASCII lower-casing of one character (the model of
`String.prototype.toLowerCase`, which on the identifiers and finish reasons
this system meets only folds ASCII letters). -/
def lowerChar (c : Char) : Char :=
  if 'A' ≤ c ∧ c ≤ 'Z' then Char.ofNat (c.toNat + 32) else c

/-- ASCII upper-casing of one character (the model of
`String.prototype.toUpperCase`). -/
def upperChar (c : Char) : Char :=
  if 'a' ≤ c ∧ c ≤ 'z' then Char.ofNat (c.toNat - 32) else c

/-- `s.toLowerCase()`. -/
def lowerString (s : String) : String := ⟨s.data.map lowerChar⟩

/-- `s.toUpperCase()`. -/
def upperString (s : String) : String := ⟨s.data.map upperChar⟩

/-- `v?.toLowerCase()`: short-circuits on `null`/`undefined`, lower-cases a
string, and throws a `TypeError` on any other value. -/
def jsToLowerOpt (v : Option Json) : Except Unit (Option Json) :=
  match v with
  | none => .ok none
  | some .null => .ok none
  | some (.str s) => .ok (some (.str (lowerString s)))
  | some _ => .error ()

/-- `v?.toUpperCase()`: short-circuits on `null`/`undefined`, upper-cases a
string, and throws a `TypeError` on any other value. -/
def jsToUpperOpt (v : Option Json) : Except Unit (Option Json) :=
  match v with
  | none => .ok none
  | some .null => .ok none
  | some (.str s) => .ok (some (.str (upperString s)))
  | some _ => .error ()

/-- JSON whitespace (also the whitespace trimmed by `String.prototype.trim`
in the cases the reframer meets). -/
def isWsChar (c : Char) : Bool :=
  c = ' ' || c = '\t' || c = '\n' || c = '\r'

/-- Drop leading whitespace. -/
def skipWs (l : List Char) : List Char := l.dropWhile isWsChar

/-- `String.prototype.trim`: drop whitespace from both ends. -/
def trimWs (l : List Char) : List Char :=
  ((l.dropWhile isWsChar).reverse.dropWhile isWsChar).reverse

/-- Body of a JSON string literal, after the opening quote: returns the decoded
string and the input after the closing quote.  `\uXXXX` escapes are not
modelled (they make the parse fail). -/
def parseStringLit : List Char → Option (String × List Char)
  | [] => none
  | c :: rest =>
    if c = '"' then some ("", rest)
    else if c = '\\' then
      match rest with
      | [] => none
      | e :: rest2 =>
        let esc : Option Char :=
          if e = '"' then some '"'
          else if e = '\\' then some '\\'
          else if e = '/' then some '/'
          else if e = 'n' then some '\n'
          else if e = 't' then some '\t'
          else if e = 'r' then some '\r'
          else if e = 'b' then some (Char.ofNat 8)
          else if e = 'f' then some (Char.ofNat 12)
          else none
        match esc with
        | some ch => (parseStringLit rest2).map fun (s, r) => (⟨ch :: s.data⟩, r)
        | none => none
    else (parseStringLit rest).map fun (s, r) => (⟨c :: s.data⟩, r)

/-- Numeric value of a digit string. -/
def natOfDigits (ds : List Char) : Nat :=
  ds.foldl (fun a c => a * 10 + (c.toNat - 48)) 0

/-- A JSON integer literal (an optional minus sign and digits; fractional and
exponent forms are outside the model and fail). -/
def parseNum (l : List Char) : Option (Json × List Char) :=
  let (neg, l2) := match l with
    | '-' :: r => (true, r)
    | _ => (false, l)
  let ds := l2.takeWhile Char.isDigit
  if ds = [] then none
  else
    let rest := l2.dropWhile Char.isDigit
    match rest with
    | '.' :: _ => none
    | 'e' :: _ => none
    | 'E' :: _ => none
    | _ => some (.num (if neg then -(natOfDigits ds : Int) else (natOfDigits ds : Int)), rest)

mutual

/-- One JSON value (with leading whitespace), returning the rest of the input.
The fuel bounds the nesting depth. -/
def parseValue : Nat → List Char → Option (Json × List Char)
  | 0, _ => none
  | fuel + 1, input =>
    match skipWs input with
    | [] => none
    | c :: rest =>
      if c = '"' then (parseStringLit rest).map fun (s, r) => (.str s, r)
      else if c = 't' then
        if rest.take 3 = ['r', 'u', 'e'] then some (.bool true, rest.drop 3) else none
      else if c = 'f' then
        if rest.take 4 = ['a', 'l', 's', 'e'] then some (.bool false, rest.drop 4) else none
      else if c = 'n' then
        if rest.take 3 = ['u', 'l', 'l'] then some (.null, rest.drop 3) else none
      else if c = '\x7b' then
        (parseObjItems fuel rest).map fun (fs, r) => (.obj fs, r)
      else if c = '[' then
        (parseArrItems fuel rest).map fun (es, r) => (.arr es, r)
      else parseNum (c :: rest)

/-- Array items after `[`: either `]` immediately or a comma-separated list. -/
def parseArrItems : Nat → List Char → Option (List Json × List Char)
  | 0, _ => none
  | fuel + 1, input =>
    match skipWs input with
    | ']' :: r => some ([], r)
    | other =>
      match parseValue fuel other with
      | none => none
      | some (v, r) =>
        match parseArrTail fuel r with
        | none => none
        | some (vs, r2) => some (v :: vs, r2)

/-- Array continuation: `,` then a value, or the closing `]`. -/
def parseArrTail : Nat → List Char → Option (List Json × List Char)
  | 0, _ => none
  | fuel + 1, input =>
    match skipWs input with
    | ']' :: r => some ([], r)
    | ',' :: r =>
      match parseValue fuel r with
      | none => none
      | some (v, r2) =>
        match parseArrTail fuel r2 with
        | none => none
        | some (vs, r3) => some (v :: vs, r3)
    | _ => none

/-- Object members after the opening brace: either the closing brace
immediately or a comma-separated list of `"key": value` pairs. -/
def parseObjItems : Nat → List Char → Option (List (String × Json) × List Char)
  | 0, _ => none
  | fuel + 1, input =>
    match skipWs input with
    | '\x7d' :: r => some ([], r)
    | other =>
      match parseMember fuel other with
      | none => none
      | some (kv, r) =>
        match parseObjTail fuel r with
        | none => none
        | some (kvs, r2) => some (kv :: kvs, r2)

/-- Object continuation: `,` then a member, or the closing brace. -/
def parseObjTail : Nat → List Char → Option (List (String × Json) × List Char)
  | 0, _ => none
  | fuel + 1, input =>
    match skipWs input with
    | '\x7d' :: r => some ([], r)
    | ',' :: r =>
      match parseMember fuel r with
      | none => none
      | some (kv, r2) =>
        match parseObjTail fuel r2 with
        | none => none
        | some (kvs, r3) => some (kv :: kvs, r3)
    | _ => none

/-- One `"key": value` object member. -/
def parseMember : Nat → List Char → Option ((String × Json) × List Char)
  | 0, _ => none
  | fuel + 1, input =>
    match skipWs input with
    | '"' :: r =>
      match parseStringLit r with
      | none => none
      | some (k, r2) =>
        match skipWs r2 with
        | ':' :: r3 =>
          match parseValue fuel r3 with
          | none => none
          | some (v, r4) => some ((k, v), r4)
        | _ => none
    | _ => none

end

/-- The model of `JSON.parse` used by the reframer: parse one value and require
only whitespace after it. -/
def parseJson (l : List Char) : Option Json :=
  match parseValue (l.length + 1) l with
  | none => none
  | some (v, rest) => if skipWs rest = [] then some v else none

/-- Escape one character for a JSON string literal. -/
def escChar (c : Char) : List Char :=
  if c = '"' then ['\\', '"']
  else if c = '\\' then ['\\', '\\']
  else if c = '\n' then ['\\', 'n']
  else if c = '\t' then ['\\', 't']
  else if c = '\r' then ['\\', 'r']
  else [c]

/-- Serialize a string as a JSON string literal. -/
def serializeStr (s : String) : List Char :=
  '"' :: s.data.foldr (fun c acc => escChar c ++ acc) ['"']

mutual

/-- The model of `JSON.stringify` (no added whitespace, object fields in
insertion order). -/
def serializeJson : Json → List Char
  | .null => 'n' :: 'u' :: 'l' :: 'l' :: []
  | .bool true => 't' :: 'r' :: 'u' :: 'e' :: []
  | .bool false => 'f' :: 'a' :: 'l' :: 's' :: 'e' :: []
  | .num n => (toString n).data
  | .str s => serializeStr s
  | .arr elems => '[' :: serializeJsonList elems ++ [']']
  | .obj fields => '\x7b' :: serializeJsonFields fields ++ ['\x7d']

/-- Comma-separated serialization of array elements. -/
def serializeJsonList : List Json → List Char
  | [] => []
  | [x] => serializeJson x
  | x :: xs => serializeJson x ++ ',' :: serializeJsonList xs

/-- Comma-separated serialization of object members. -/
def serializeJsonFields : List (String × Json) → List Char
  | [] => []
  | [(k, v)] => serializeStr k ++ ':' :: serializeJson v
  | (k, v) :: kvs => serializeStr k ++ ':' :: serializeJson v ++ ',' :: serializeJsonFields kvs

end

/-- Strict equality of a possibly-`undefined` JSON value with a string
(`v === "s"` in the source). -/
def jsEqStr (v : Option Json) (s : String) : Bool :=
  match v with
  | some (.str t) => t = s
  | _ => false

/-- The `standard` chunk object built at the top of
`streamChunkToStandardFormat`, with a given `choices` value (the source
mutates `standard.choices` in place, which keeps the field order
`id, object, created, model, choices`). -/
def mkStdChunk (now : Int) (idv createdv modelv : Option Json) (choices : List Json) : Json :=
  .obj [("id", jsOr idv (.str "")),
        ("object", .str "chat.completion.chunk"),
        ("created", jsOr createdv (.num now)),
        ("model", jsOr modelv (.str "")),
        ("choices", .arr choices)]

/-- `streamChunkToStandardFormat(chunk, sourceFormat)`: convert one parsed
stream event to the standard (OpenAI-shaped) chunk.  Thrown `TypeError`s
(e.g. property access on a `null` chunk) are modelled as `.error`. -/
def streamChunkToStandardFormat (now : Int) (chunk : Json) (sourceFormat : String) :
    Except Unit Json :=
  match jsGetThrow chunk "id" with
  | .error e => .error e
  | .ok idv =>
    match jsGetThrow chunk "created" with
    | .error e => .error e
    | .ok createdv =>
      match jsGetThrow chunk "model" with
      | .error e => .error e
      | .ok modelv =>
        if sourceFormat = "openai" ∨ sourceFormat = "openrouter" then .ok chunk
        else if sourceFormat = "anthropic" then
          match jsGetThrow chunk "type" with
          | .error e => .error e
          | .ok tyv =>
            if jsEqStr tyv "content_block_delta" then
              .ok (mkStdChunk now idv createdv modelv
                [.obj [("index", .num 0),
                       ("delta", .obj [("content",
                          jsOr (jsGetOpt (jsGetOpt (some chunk) "delta") "text") (.str ""))]),
                       ("finish_reason", .null)]])
            else if jsEqStr tyv "message_stop" then
              .ok (mkStdChunk now idv createdv modelv
                [.obj [("index", .num 0), ("delta", .obj []), ("finish_reason", .str "stop")]])
            else .ok (mkStdChunk now idv createdv modelv [])
        else if sourceFormat = "gemini" then
          match jsGetThrow chunk "candidates" with
          | .error e => .error e
          | .ok candv =>
            match candv with
            | some (.arr (candidate :: _)) =>
              match jsGetThrow candidate "content" with
              | .error e => .error e
              | .ok contentv =>
                match jsGetThrow candidate "finishReason" with
                | .error e => .error e
                | .ok frv =>
                  match jsToLowerOpt frv with
                  | .error e => .error e
                  | .ok frLower =>
                    .ok (mkStdChunk now idv createdv modelv
                      [.obj [("index", .num 0),
                             ("delta", .obj [("content",
                                jsOr (jsGetOpt (jsIdx0Opt (jsGetOpt contentv "parts")) "text")
                                  (.str ""))]),
                             ("finish_reason", jsOr frLower .null)]])
            | _ => .ok (mkStdChunk now idv createdv modelv [])
        else .ok (mkStdChunk now idv createdv modelv [])

/-- `streamChunkFromStandardFormat(standard, targetFormat)`: convert a
standard chunk to the target protocol's event shape.  When the chunk carries
neither content nor a finish reason the source falls through its `switch` and
returns `standard` itself. -/
def streamChunkFromStandardFormat (standard : Json) (targetFormat : String) :
    Except Unit Json :=
  if targetFormat = "openai" ∨ targetFormat = "openrouter" then .ok standard
  else if targetFormat = "anthropic" then
    match jsGetThrow standard "choices" with
    | .error e => .error e
    | .ok choicesv =>
      match jsIdx0Throw choicesv with
      | .error e => .error e
      | .ok choice =>
        let contentv := jsGetOpt (jsGetOpt choice "delta") "content"
        if jsTruthyOpt contentv then
          .ok (.obj [("type", .str "content_block_delta"),
                     ("index", .num 0),
                     ("delta", .obj [("type", .str "text_delta"),
                                     ("text", contentv.getD .null)])])
        else if jsTruthyOpt (jsGetOpt choice "finish_reason") then
          .ok (.obj [("type", .str "message_stop")])
        else .ok standard
  else if targetFormat = "gemini" then
    match jsGetThrow standard "choices" with
    | .error e => .error e
    | .ok choicesv =>
      match jsIdx0Throw choicesv with
      | .error e => .error e
      | .ok geminiChoice =>
        let contentv := jsGetOpt (jsGetOpt geminiChoice "delta") "content"
        if jsTruthyOpt contentv then
          match jsToUpperOpt (jsGetOpt geminiChoice "finish_reason") with
          | .error e => .error e
          | .ok frUpper =>
            .ok (.obj [("candidates", .arr
              [.obj [("content", .obj [("parts", .arr [.obj [("text", contentv.getD .null)]]),
                                       ("role", .str "model")]),
                     ("finishReason", jsOr frUpper .null),
                     ("index", .num 0)]])])
        else .ok standard
  else .ok standard

/-- `convertStreamChunk(chunk, sourceFormat, targetFormat)`: identity when the
formats coincide, otherwise through the standard chunk shape. -/
def convertStreamChunk (now : Int) (chunk : Json) (sourceFormat targetFormat : String) :
    Except Unit Json :=
  if sourceFormat = targetFormat then .ok chunk
  else
    match streamChunkToStandardFormat now chunk sourceFormat with
    | .error e => .error e
    | .ok standard => streamChunkFromStandardFormat standard targetFormat

/-- `processStreamLine(line, ...)`: process one complete line, returning the
sequence of writes it performs.  A parse failure — or a conversion
`TypeError`, both caught by the same `try` — passes the raw line through. -/
def processStreamLine (now : Int) (sourceFormat targetFormat : String)
    (line : List Char) : List (List Char) :=
  if trimWs line = [] then [['\n']]
  else if line.take 6 = ("data: ").data then
    let dataStr := line.drop 6
    if dataStr = ("[DONE]").data ∨ trimWs dataStr = [] then
      [line ++ ('\n' :: '\n' :: [])]
    else
      match parseJson dataStr with
      | some data =>
        match convertStreamChunk now data sourceFormat targetFormat with
        | .ok convertedData =>
          [("data: ").data ++ serializeJson convertedData ++ ('\n' :: '\n' :: [])]
        | .error _ => [line ++ ('\n' :: '\n' :: [])]
      | none => [line ++ ('\n' :: '\n' :: [])]
  else [line ++ ['\n']]

/-- `buffer.split('\n')` on decoded text: always returns at least one
fragment; a trailing newline yields a final empty fragment. -/
def splitNl : List Char → List (List Char)
  | [] => [[]]
  | c :: rest =>
    match splitNl rest with
    | [] => [[]]
    | l :: ls => if c = '\n' then [] :: l :: ls else (c :: l) :: ls

/-- The read loop of `processStreamData`: per read, append the decoded text to
the buffer, split on newline, keep the last (possibly incomplete) fragment as
the new buffer, and dispatch every other fragment to line processing in
order; at end-of-data a non-empty residual buffer is flushed as a final
line. -/
def processStreamData (now : Int) (sourceFormat targetFormat : String) :
    List Char → List (List Char) → List (List Char)
  | buffer, [] =>
    if buffer ≠ [] then processStreamLine now sourceFormat targetFormat buffer else []
  | buffer, value :: rest =>
    let parts := splitNl (buffer ++ value)
    (parts.dropLast).flatMap (processStreamLine now sourceFormat targetFormat) ++
      processStreamData now sourceFormat targetFormat (parts.getLastD []) rest

def consHead (p : List Char) : List (List Char) → List (List Char)
  | [] => [p]
  | h :: t => (p ++ h) :: t

theorem splitNl_ne_nil (s : List Char) : splitNl s ≠ [] := by
  cases s with
  | nil => simp [splitNl]
  | cons c rest =>
    simp only [splitNl]
    cases splitNl rest with
    | nil => simp
    | cons l ls => by_cases hc : c = '\n' <;> simp [hc]

theorem splitNl_of_no_newline {s : List Char} (h : '\n' ∉ s) : splitNl s = [s] := by
  induction s with
  | nil => simp [splitNl]
  | cons c rest ih =>
    simp only [List.mem_cons, not_or] at h
    have hc : ¬ c = '\n' := fun hh => h.1 hh.symm
    simp [splitNl, ih h.2, hc]

theorem getLastD_irrel {α : Type} : ∀ (l : List α), l ≠ [] → ∀ (d d' : α), l.getLastD d = l.getLastD d'
  | [], h, _, _ => absurd rfl h
  | _ :: _, _, _, _ => by simp only [List.getLastD_cons]

theorem no_newline_in_buffer (s : List Char) : '\n' ∉ (splitNl s).getLastD [] := by
  induction s with
  | nil => simp [splitNl]
  | cons c rest ih =>
    simp only [splitNl]
    cases hr : splitNl rest with
    | nil => exact absurd hr (splitNl_ne_nil rest)
    | cons l ls =>
      rw [hr] at ih
      by_cases hc : c = '\n'
      · simpa [hc, List.getLastD_cons] using ih
      · simp only [if_neg hc]
        cases ls with
        | nil =>
          simp only [List.getLastD_cons, List.getLastD_nil] at ih ⊢
          simp only [List.mem_cons, not_or]
          exact ⟨fun hh => hc hh.symm, ih⟩
        | cons m ms =>
          rw [List.getLastD_cons] at ih ⊢
          rwa [getLastD_irrel (m :: ms) (by simp) (c :: l) l]

theorem splitNl_append : ∀ (x y : List Char),
    splitNl (x ++ y) = (splitNl x).dropLast ++ consHead ((splitNl x).getLastD []) (splitNl y)
  | [], y => by
    cases hy : splitNl y with
    | nil => exact absurd hy (splitNl_ne_nil y)
    | cons l ls => simp [splitNl, consHead, hy]
  | c :: x', y => by
    have ih := splitNl_append x' y
    cases hx : splitNl x' with
    | nil => exact absurd hx (splitNl_ne_nil x')
    | cons l0 ls0 =>
      rw [hx] at ih
      cases hz : splitNl (x' ++ y) with
      | nil => exact absurd hz (splitNl_ne_nil _)
      | cons z zs =>
        rw [hz] at ih
        have hl : splitNl (c :: x' ++ y) = if c = '\n' then [] :: z :: zs else (c :: z) :: zs := by
          simp only [List.cons_append, splitNl, List.append_eq, hz]
        have hr : splitNl (c :: x') = if c = '\n' then [] :: l0 :: ls0 else (c :: l0) :: ls0 := by
          simp only [splitNl, hx]
        rw [hl, hr]
        by_cases hc : c = '\n'
        · simp only [if_pos hc]
          rw [List.dropLast_cons₂, List.getLastD_cons]
          simp only [List.cons_append]
          rw [← ih]
        · simp only [if_neg hc]
          cases ls0 with
          | nil =>
            simp only [List.dropLast_single, List.nil_append, List.getLastD_cons,
              List.getLastD_nil] at ih ⊢
            cases hY : splitNl y with
            | nil => exact absurd hY (splitNl_ne_nil y)
            | cons y0 ys =>
              rw [hY] at ih
              simp only [consHead] at ih ⊢
              injection ih with h1 h2
              subst h1; subst h2
              simp
          | cons m ms =>
            simp only [List.dropLast_cons₂, List.getLastD_cons] at ih ⊢
            simp only [List.cons_append] at ih ⊢
            injection ih with h1 h2
            subst h1; subst h2
            rfl

theorem getLastD_append_ne_nil {α : Type} (l₁ : List α) {l₂ : List α} (h : l₂ ≠ []) (d : α) :
    (l₁ ++ l₂).getLastD d = l₂.getLastD d := by
  cases l₂ with
  | nil => exact absurd rfl h
  | cons x xs => simp only [List.getLastD_eq_getLast?, List.getLast?_append_of_ne_nil _ h]

theorem processStreamData_closed (now : Int) (src tgt : String) :
    ∀ (chunks : List (List Char)) (buffer : List Char), '\n' ∉ buffer →
    processStreamData now src tgt buffer chunks =
      ((splitNl (buffer ++ chunks.flatten)).dropLast).flatMap (processStreamLine now src tgt) ++
        (if (splitNl (buffer ++ chunks.flatten)).getLastD [] ≠ [] then
          processStreamLine now src tgt ((splitNl (buffer ++ chunks.flatten)).getLastD [])
        else [])
  | [], buffer, hb => by
    simp only [List.flatten_nil, List.append_nil, processStreamData]
    rw [splitNl_of_no_newline hb]
    simp
  | c :: cs, buffer, hb => by
    have hg := no_newline_in_buffer (buffer ++ c)
    have ih := processStreamData_closed now src tgt cs ((splitNl (buffer ++ c)).getLastD []) hg
    simp only [processStreamData]
    rw [ih]
    have key : splitNl (buffer ++ (c :: cs).flatten) =
        (splitNl (buffer ++ c)).dropLast ++
          splitNl ((splitNl (buffer ++ c)).getLastD [] ++ cs.flatten) := by
      rw [List.flatten_cons, ← List.append_assoc, splitNl_append (buffer ++ c) cs.flatten]
      congr 1
      rw [splitNl_append ((splitNl (buffer ++ c)).getLastD []) cs.flatten,
        splitNl_of_no_newline hg]
      simp
    rw [key]
    have hB : splitNl ((splitNl (buffer ++ c)).getLastD [] ++ cs.flatten) ≠ [] :=
      splitNl_ne_nil _
    rw [List.dropLast_append_of_ne_nil _ hB, List.flatMap_append,
      getLastD_append_ne_nil _ hB, List.append_assoc]

/-- C1: feeding the byte stream to the reframer in arbitrarily small fragments
produces exactly the same sequence of emitted writes, in the same order, as
feeding it as one contiguous block: the final incomplete fragment of each
read is retained in the buffer rather than emitted, so only complete lines
(plus the end-of-data flush) ever reach line-processing. -/
theorem c1_reframer_fragmentation_invariance (now : Int) (sourceFormat targetFormat : String)
    (chunks : List (List Char)) :
    processStreamData now sourceFormat targetFormat [] chunks =
      processStreamData now sourceFormat targetFormat [] [chunks.flatten] := by
  rw [processStreamData_closed now sourceFormat targetFormat chunks [] (by simp),
    processStreamData_closed now sourceFormat targetFormat [chunks.flatten] [] (by simp)]
  simp

theorem dropWhile_append_singleton_ne_nil {p : Char → Bool} {c : Char} (hc : ¬ p c = true) :
    ∀ xs : List Char, List.dropWhile p (xs ++ [c]) ≠ []
  | [] => by simp [List.dropWhile, hc]
  | x :: xs => by
    simp only [List.cons_append, List.dropWhile]
    by_cases hx : p x = true
    · simp only [hx]
      exact dropWhile_append_singleton_ne_nil hc xs
    · simp [hx]

theorem trimWs_ne_nil_of_head {c : Char} (t : List Char) (hc : isWsChar c = false) :
    trimWs (c :: t) ≠ [] := by
  unfold trimWs
  rw [List.dropWhile_cons]
  simp only [hc, Bool.false_eq_true, if_false]
  intro h
  rw [List.reverse_eq_nil_iff] at h
  have := dropWhile_append_singleton_ne_nil (p := isWsChar) (c := c) (by simp [hc]) t.reverse
  rw [List.reverse_cons] at h
  exact this h

/-- C6: a `data:` line whose payload is neither the `[DONE]` sentinel nor
blank and fails to parse as JSON is passed through unchanged (with the
event-terminating blank line), and line-processing of the surrounding lines
is unaffected: valid events around it are still translated in order and the
stream is not terminated. -/
theorem c6_invalid_payload_passthrough (now : Int) (sourceFormat targetFormat : String)
    (line : List Char)
    (hdata : line.take 6 = ("data: ").data)
    (hdone : line.drop 6 ≠ ("[DONE]").data)
    (hblank : trimWs (line.drop 6) ≠ [])
    (hparse : parseJson (line.drop 6) = none) :
    processStreamLine now sourceFormat targetFormat line = [line ++ ('\n' :: '\n' :: [])] ∧
    ∀ pre post : List (List Char),
      (pre ++ line :: post).flatMap (processStreamLine now sourceFormat targetFormat) =
        pre.flatMap (processStreamLine now sourceFormat targetFormat) ++
          (line ++ ('\n' :: '\n' :: [])) ::
            post.flatMap (processStreamLine now sourceFormat targetFormat) := by
  have hline : processStreamLine now sourceFormat targetFormat line =
      [line ++ ('\n' :: '\n' :: [])] := by
    have hhead : ∃ t, line = 'd' :: t := by
      cases line with
      | nil => simp at hdata
      | cons c t =>
        refine ⟨t, ?_⟩
        rw [List.take_succ_cons] at hdata
        injection hdata with h1 _
        rw [h1]
    obtain ⟨t, ht⟩ := hhead
    have htrim : trimWs line ≠ [] := by
      rw [ht]; exact trimWs_ne_nil_of_head t (by decide)
    simp only [processStreamLine]
    rw [if_neg htrim, if_pos hdata, if_neg (by simp [hdone, hblank]), hparse]
  refine ⟨hline, fun pre post => ?_⟩
  rw [List.flatMap_append, List.flatMap_cons, hline]
  simp

theorem c6_witness :
    processStreamLine 0 "anthropic" "openai" (("data: \x7bbad").data) =
      [("data: \x7bbad").data ++ ('\n' :: '\n' :: [])] :=
  (c6_invalid_payload_passthrough 0 "anthropic" "openai" (("data: \x7bbad").data)
    (by decide) (by decide) (by decide) rfl).1

/-- First Anthropic-shaped event of the Scenario C stream: a content delta
carrying `"He"`. -/
def c7DeltaHe : Json :=
  .obj [("type", .str "content_block_delta"), ("index", .num 0),
        ("delta", .obj [("type", .str "text_delta"), ("text", .str "He")])]

/-- Second Anthropic-shaped event: a content delta carrying `"llo"`. -/
def c7DeltaLlo : Json :=
  .obj [("type", .str "content_block_delta"), ("index", .num 0),
        ("delta", .obj [("type", .str "text_delta"), ("text", .str "llo")])]

/-- Third Anthropic-shaped event: the message stop. -/
def c7Stop : Json := .obj [("type", .str "message_stop")]

/-- The Scenario C input stream: three `data:` lines carrying the three
events. -/
def c7Input : List Char :=
  ("data: ").data ++ serializeJson c7DeltaHe ++ ['\n'] ++
    ("data: ").data ++ serializeJson c7DeltaLlo ++ ['\n'] ++
    ("data: ").data ++ serializeJson c7Stop ++ ['\n']

/-- Expected first OpenAI-shaped output chunk (`delta.content = "He"`). -/
def c7OutChunk1 (now : Int) : Json :=
  .obj [("id", .str ""), ("object", .str "chat.completion.chunk"), ("created", .num now),
        ("model", .str ""),
        ("choices", .arr [.obj [("index", .num 0), ("delta", .obj [("content", .str "He")]),
                                ("finish_reason", .null)]])]

/-- Expected second OpenAI-shaped output chunk (`delta.content = "llo"`). -/
def c7OutChunk2 (now : Int) : Json :=
  .obj [("id", .str ""), ("object", .str "chat.completion.chunk"), ("created", .num now),
        ("model", .str ""),
        ("choices", .arr [.obj [("index", .num 0), ("delta", .obj [("content", .str "llo")]),
                                ("finish_reason", .null)]])]

/-- Expected third OpenAI-shaped output chunk (empty delta,
`finish_reason = "stop"`). -/
def c7OutChunk3 (now : Int) : Json :=
  .obj [("id", .str ""), ("object", .str "chat.completion.chunk"), ("created", .num now),
        ("model", .str ""),
        ("choices", .arr [.obj [("index", .num 0), ("delta", .obj []),
                                ("finish_reason", .str "stop")]])]

/-- C7: the three-event Anthropic-shaped stream ("He", "llo", stop)
translated to OpenAI-shaped yields exactly three `data:` lines; their JSON
payloads have `choices[0].delta.content` equal to `"He"`, `"llo"`, and
absent respectively, and the third carries `finish_reason = "stop"`. -/
theorem c7_scenario_anthropic_to_openai (now : Int) :
    processStreamData now "anthropic" "openai" [] [c7Input] =
      [("data: ").data ++ serializeJson (c7OutChunk1 now) ++ ('\n' :: '\n' :: []),
       ("data: ").data ++ serializeJson (c7OutChunk2 now) ++ ('\n' :: '\n' :: []),
       ("data: ").data ++ serializeJson (c7OutChunk3 now) ++ ('\n' :: '\n' :: [])] ∧
    jsGetOpt (jsGetOpt (jsIdx0Opt (jsGetOpt (some (c7OutChunk1 now)) "choices")) "delta")
        "content" = some (.str "He") ∧
    jsGetOpt (jsGetOpt (jsIdx0Opt (jsGetOpt (some (c7OutChunk2 now)) "choices")) "delta")
        "content" = some (.str "llo") ∧
    jsGetOpt (jsGetOpt (jsIdx0Opt (jsGetOpt (some (c7OutChunk3 now)) "choices")) "delta")
        "content" = none ∧
    jsGetOpt (jsIdx0Opt (jsGetOpt (some (c7OutChunk3 now)) "choices")) "finish_reason" =
      some (.str "stop") := by
  refine ⟨?_, rfl, rfl, rfl, rfl⟩
  set_option maxRecDepth 10000 in rfl

/-- C8 (amended): in the IR→Anthropic-shaped stream-chunk adapter, a chunk
whose first choice's delta carries truthy content becomes a
`content_block_delta` event carrying that text; a chunk with no (truthy)
content but a truthy `finish_reason` becomes a `message_stop` event; and a
chunk with neither is returned as the standard chunk itself (so the reframer
still emits an output event for it, carrying the unconverted chunk). -/
theorem c8_anthropic_chunk_emission (standard : Json) (choicesv choice : Option Json)
    (hchoices : jsGetThrow standard "choices" = .ok choicesv)
    (hidx : jsIdx0Throw choicesv = .ok choice) :
    (∀ c : Json, jsGetOpt (jsGetOpt choice "delta") "content" = some c → jsTruthy c = true →
      streamChunkFromStandardFormat standard "anthropic" =
        .ok (.obj [("type", .str "content_block_delta"), ("index", .num 0),
                   ("delta", .obj [("type", .str "text_delta"), ("text", c)])])) ∧
    (jsTruthyOpt (jsGetOpt (jsGetOpt choice "delta") "content") = false →
      jsTruthyOpt (jsGetOpt choice "finish_reason") = true →
      streamChunkFromStandardFormat standard "anthropic" =
        .ok (.obj [("type", .str "message_stop")])) ∧
    (jsTruthyOpt (jsGetOpt (jsGetOpt choice "delta") "content") = false →
      jsTruthyOpt (jsGetOpt choice "finish_reason") = false →
      streamChunkFromStandardFormat standard "anthropic" = .ok standard) := by
  have hbase : streamChunkFromStandardFormat standard "anthropic" =
      (if jsTruthyOpt (jsGetOpt (jsGetOpt choice "delta") "content") then
        .ok (.obj [("type", .str "content_block_delta"), ("index", .num 0),
                   ("delta", .obj [("type", .str "text_delta"),
                     ("text", (jsGetOpt (jsGetOpt choice "delta") "content").getD .null)])])
      else if jsTruthyOpt (jsGetOpt choice "finish_reason") then
        .ok (.obj [("type", .str "message_stop")])
      else .ok standard) := by
    simp [streamChunkFromStandardFormat, hchoices, hidx]
  refine ⟨?_, ?_, ?_⟩
  · intro c hc htruthy
    rw [hbase, hc]
    simp only [jsTruthyOpt, htruthy, if_pos, Option.getD_some]
  · intro hfalse htrue
    rw [hbase, hfalse]
    simp only [Bool.false_eq_true, if_false, htrue, if_pos]
  · intro hfalse hfalse2
    rw [hbase, hfalse, hfalse2]
    simp

theorem c8_witness :
    streamChunkFromStandardFormat
        (.obj [("choices", .arr [.obj [("index", .num 0),
          ("delta", .obj [("content", .str "Hi")]), ("finish_reason", .null)]])]) "anthropic" =
      .ok (.obj [("type", .str "content_block_delta"), ("index", .num 0),
                 ("delta", .obj [("type", .str "text_delta"), ("text", .str "Hi")])]) :=
  ((c8_anthropic_chunk_emission
      (.obj [("choices", .arr [.obj [("index", .num 0),
        ("delta", .obj [("content", .str "Hi")]), ("finish_reason", .null)]])])
      (some (.arr [.obj [("index", .num 0), ("delta", .obj [("content", .str "Hi")]),
        ("finish_reason", .null)]]))
      (some (.obj [("index", .num 0), ("delta", .obj [("content", .str "Hi")]),
        ("finish_reason", .null)]))
      rfl rfl).1) (.str "Hi") rfl rfl

/-- The standard chunk of the C8 counterexample: one choice with an empty
delta and a `null` finish reason. -/
def c8Std : Json :=
  .obj [("id", .str "c"), ("object", .str "chat.completion.chunk"), ("created", .num 1),
        ("model", .str "m"),
        ("choices", .arr [.obj [("index", .num 0), ("delta", .obj []),
                                ("finish_reason", .null)]])]

/-- C8 counterexample: an IR chunk with neither content nor finish_reason
does NOT produce "no output event at all" — the adapter returns the standard
chunk itself and the reframer emits a `data:` event carrying it. -/
theorem c8_counterexample :
    streamChunkFromStandardFormat c8Std "anthropic" = .ok c8Std ∧
    processStreamLine 0 "openai" "anthropic" (("data: ").data ++ serializeJson c8Std) =
      [("data: ").data ++ serializeJson c8Std ++ ('\n' :: '\n' :: [])] ∧
    ("data: ").data ++ serializeJson c8Std ++ ('\n' :: '\n' :: []) ≠ [] := by
  refine ⟨rfl, ?_, by decide⟩
  set_option maxRecDepth 10000 in rfl

/-- The `cache_control` annotation attached to a content part
(`{type: "ephemeral"}`). -/
structure CacheControl where
  type : String
deriving DecidableEq

/-- One content part of a message's content array: a tagged part with an
optional text and an optional `cache_control` annotation. -/
structure MessagePart where
  type : String
  text : Option String
  cache_control : Option CacheControl
deriving DecidableEq

/-- Message content: either a bare string or an array of content parts. -/
inductive MessageContent where
  | str (s : String)
  | parts (ps : List MessagePart)
deriving DecidableEq

/-- A chat message. -/
structure ChatMessage where
  role : String
  content : MessageContent
deriving DecidableEq

/-- The standard (IR) chat request built by `toStandardFormat`.
`temperature` is modelled as a rational. -/
structure StdRequest where
  model : String
  messages : List ChatMessage
  max_tokens : Int
  temperature : Rat
  stream : Bool
  system : Option MessageContent
deriving DecidableEq

/-- The JavaScript `x || d` default on an optional string (`""` is falsy). -/
def jsOrString (v : Option String) (d : String) : String :=
  match v with
  | some s => if s = "" then d else s
  | none => d

/-- The JavaScript `x || d` default on an optional integer (`0` is falsy). -/
def jsOrInt (v : Option Int) (d : Int) : Int :=
  match v with
  | some n => if n = 0 then d else n
  | none => d

/-- The JavaScript `x || d` default on an optional rational (`0` is falsy). -/
def jsOrRat (v : Option Rat) (d : Rat) : Rat :=
  match v with
  | some q => if q = 0 then d else q
  | none => d

/-- Truthiness of an optional message content (`undefined`, and the empty
string, are falsy; a parts array is always truthy). -/
def contentTruthy : Option MessageContent → Bool
  | none => false
  | some (.str s) => s ≠ ""
  | some (.parts _) => true

/-- An OpenAI-shaped (also OpenRouter/Groq-shaped) inbound request body;
every field may be absent. -/
structure OpenAIRequest where
  model : Option String
  messages : Option (List ChatMessage)
  max_tokens : Option Int
  temperature : Option Rat
  stream : Option Bool
deriving DecidableEq

/-- An Anthropic-shaped inbound request body: the OpenAI fields plus a
first-class top-level `system`. -/
structure AnthropicRequest where
  model : Option String
  messages : Option (List ChatMessage)
  max_tokens : Option Int
  temperature : Option Rat
  stream : Option Bool
  system : Option MessageContent
deriving DecidableEq

/-- One part of a Gemini-shaped `contents` entry. -/
structure GeminiPart where
  text : Option String
deriving DecidableEq

/-- One Gemini-shaped `contents` entry (`parts` is accessed with a plain
`.map`, so it is required). -/
structure GeminiContent where
  role : Option String
  parts : List GeminiPart
deriving DecidableEq

/-- A Gemini-shaped `generationConfig`. -/
structure GenerationConfig where
  maxOutputTokens : Option Int
  temperature : Option Rat
deriving DecidableEq

/-- A Gemini-shaped inbound request body. -/
structure GeminiRequest where
  contents : Option (List GeminiContent)
  generationConfig : Option GenerationConfig
deriving DecidableEq

/-- An inbound vendor request tagged with its source format. -/
inductive VendorRequest where
  | openai (r : OpenAIRequest)
  | anthropic (r : AnthropicRequest)
  | gemini (r : GeminiRequest)
deriving DecidableEq

/-- `toStandardFormat(request, sourceFormat)`: convert a vendor request to
the standard (IR) request, applying the `||` defaults of the source
(`model || ''`, `max_tokens || 2048`, `temperature || 0.7`,
`stream || false`). -/
def toStandardFormat : VendorRequest → StdRequest
  | .openai r =>
    { model := jsOrString r.model ""
      messages := r.messages.getD []
      max_tokens := jsOrInt r.max_tokens 2048
      temperature := jsOrRat r.temperature 0.7
      stream := r.stream.getD false
      system := none }
  | .anthropic r =>
    { model := jsOrString r.model ""
      messages := r.messages.getD []
      max_tokens := jsOrInt r.max_tokens 2048
      temperature := jsOrRat r.temperature 0.7
      stream := r.stream.getD false
      system := if contentTruthy r.system then r.system else none }
  | .gemini r =>
    { model := "gemini-pro"
      messages :=
        match r.contents with
        | some cs => cs.map fun content =>
            { role := if content.role = some "user" then "user" else "assistant"
              content := .str ((content.parts.map fun part => part.text.getD "").foldl
                (· ++ ·) "") }
        | none => []
      max_tokens :=
        match r.generationConfig with
        | some g => jsOrInt g.maxOutputTokens 2048
        | none => 2048
      temperature :=
        match r.generationConfig with
        | some g => jsOrRat g.temperature 0.7
        | none => 0.7
      stream := false
      system := none }

/-- `haystack` starts with `pat` (character lists). -/
def charsStartWith : List Char → List Char → Bool
  | _, [] => true
  | [], _ :: _ => false
  | c :: cs, p :: ps => c = p && charsStartWith cs ps

/-- `haystack.includes(needle)` on character lists. -/
def charsContain : List Char → List Char → Bool
  | [], pat => charsStartWith [] pat
  | c :: cs, pat => charsStartWith (c :: cs) pat || charsContain cs pat

/-- Substring test (`String.prototype.includes`). -/
def containsSubstring (haystack needle : String) : Bool :=
  charsContain haystack.data needle.data

/-- `isClaudeModel(model)`: the model identifier belongs to the
Anthropic/Claude family. -/
def isClaudeModel (model : String) : Bool :=
  if model = "" then false
  else containsSubstring (lowerString model) "claude" ||
    containsSubstring (lowerString model) "anthropic"

/-- The prompt-caching opt-in signal: an `anthropic-beta` header that is
present, truthy and contains `"prompt-caching"` (`none` also covers the
absence of the original request object). -/
def betaIncludesPromptCaching : Option String → Bool
  | some h => containsSubstring h "prompt-caching"
  | none => false

/-- `removeCacheControlFromMessages(messages)`: strip the `cache_control`
annotation from every part of every array-content message. -/
def removeCacheControlFromMessages (messages : List ChatMessage) : List ChatMessage :=
  if messages = [] then messages
  else messages.map fun message =>
    match message.content with
    | .str _ => message
    | .parts ps =>
      { message with content := .parts (ps.map fun part => { part with cache_control := none }) }

/-- The per-message update of `addCacheControlToMessages`: a bare string
content becomes a one-part text array carrying `cache_control`; an array
content gets `cache_control` on its final part if that part is a text part,
and is otherwise untouched. -/
def addCacheControlToUserMessage (message : ChatMessage) : ChatMessage :=
  match message.content with
  | .str s =>
    let part : MessagePart :=
      { type := "text", text := some s, cache_control := some { type := "ephemeral" } }
    { message with content := .parts [part] }
  | .parts ps =>
    match ps.getLast? with
    | some lastPart =>
      if lastPart.type = "text" then
        { message with content := .parts (ps.dropLast ++
            [{ lastPart with cache_control := some { type := "ephemeral" } }]) }
      else message
    | none => message

/-- The backwards scan of `addCacheControlToMessages`, on the reversed
message list: modify the first user-role message met and stop. -/
def addCacheControlFromEnd : List ChatMessage → List ChatMessage
  | [] => []
  | m :: rest =>
    if m.role = "user" then addCacheControlToUserMessage m :: rest
    else m :: addCacheControlFromEnd rest

/-- `addCacheControlToMessages(messages)`: walk from the end, annotate the
last user-role message, leave everything else unchanged. -/
def addCacheControlToMessages (messages : List ChatMessage) : List ChatMessage :=
  if messages = [] then messages
  else (addCacheControlFromEnd messages.reverse).reverse

/-- An emitted OpenAI/OpenRouter-shaped request body. -/
structure OpenAIRequestOut where
  model : String
  messages : List ChatMessage
  max_tokens : Int
  temperature : Rat
  stream : Bool
deriving DecidableEq

/-- An emitted Anthropic-shaped request body. -/
structure AnthropicRequestOut where
  model : String
  messages : List ChatMessage
  max_tokens : Int
  temperature : Rat
  stream : Bool
  system : Option MessageContent
deriving DecidableEq

/-- One part of an emitted Gemini-shaped `contents` entry (the source stores
the message content in `text` as-is). -/
structure GeminiPartOut where
  text : MessageContent
deriving DecidableEq

/-- One emitted Gemini-shaped `contents` entry. -/
structure GeminiContentOut where
  role : String
  parts : List GeminiPartOut
deriving DecidableEq

/-- An emitted Gemini-shaped `generationConfig`. -/
structure GenerationConfigOut where
  maxOutputTokens : Int
  temperature : Rat
deriving DecidableEq

/-- An emitted Gemini-shaped request body. -/
structure GeminiRequestOut where
  contents : List GeminiContentOut
  generationConfig : GenerationConfigOut
deriving DecidableEq

/-- An emitted vendor request (the default switch case returns the standard
request unchanged). -/
inductive VendorRequestOut where
  | openai (r : OpenAIRequestOut)
  | anthropic (r : AnthropicRequestOut)
  | gemini (r : GeminiRequestOut)
  | std (r : StdRequest)
deriving DecidableEq

/-- `fromStandardFormat(standard, targetFormat, originalRequest, platform)`:
convert the standard request to the target format.  `anthropicBeta` models
`originalRequest.headers.get('anthropic-beta')` (with `none` covering a
missing header or a missing request object); `platform` models the target
platform tag. -/
def fromStandardFormat (standard : StdRequest) (targetFormat : String)
    (anthropicBeta : Option String) (platform : Option String) : VendorRequestOut :=
  if targetFormat = "openai" ∨ targetFormat = "openrouter" then
    let openaiRequest : OpenAIRequestOut :=
      { model := standard.model, messages := standard.messages,
        max_tokens := standard.max_tokens, temperature := standard.temperature,
        stream := standard.stream }
    let openaiRequest :=
      if platform = some "groq" then
        { openaiRequest with max_tokens := min openaiRequest.max_tokens 16384 }
      else openaiRequest
    let openaiRequest :=
      if platform = some "openrouter" then
        let msgs := removeCacheControlFromMessages openaiRequest.messages
        let msgs :=
          if betaIncludesPromptCaching anthropicBeta && isClaudeModel standard.model then
            addCacheControlToMessages msgs
          else msgs
        { openaiRequest with messages := msgs }
      else openaiRequest
    .openai openaiRequest
  else if targetFormat = "anthropic" then
    let base : AnthropicRequestOut :=
      { model := standard.model, messages := standard.messages,
        max_tokens := standard.max_tokens, temperature := standard.temperature,
        stream := standard.stream, system := none }
    if contentTruthy standard.system then .anthropic { base with system := standard.system }
    else
      match standard.messages.find? (fun msg => msg.role = "system") with
      | some systemMessage =>
        let stripped := standard.messages.filter (fun msg => msg.role ≠ "system")
        .anthropic { base with system := some systemMessage.content, messages := stripped }
      | none => .anthropic base
  else if targetFormat = "gemini" then
    let contents := standard.messages.map fun msg =>
      ({ role := if msg.role = "user" then "user" else "model",
         parts := [{ text := msg.content }] } : GeminiContentOut)
    let config : GenerationConfigOut :=
      { maxOutputTokens := standard.max_tokens, temperature := standard.temperature }
    .gemini { contents := contents, generationConfig := config }
  else .std standard

/-- The message of a standard response choice. -/
structure StdMessage where
  role : String
  content : String
deriving DecidableEq

/-- One choice of a standard (OpenAI-shaped) response. -/
structure StdChoice where
  index : Int
  message : StdMessage
  finish_reason : Option String
deriving DecidableEq

/-- A standard usage record. -/
structure Usage where
  prompt_tokens : Int
  completion_tokens : Int
  total_tokens : Int
deriving DecidableEq

/-- The standard (IR, OpenAI-shaped) chat response. -/
structure StdResponse where
  id : String
  object : String
  created : Int
  model : String
  choices : List StdChoice
  usage : Usage
deriving DecidableEq

/-- One content part of an Anthropic-shaped response. -/
structure AnthropicContentPart where
  type : Option String
  text : Option String
deriving DecidableEq

/-- An Anthropic-shaped usage record (fields may be absent). -/
structure AnthropicUsage where
  input_tokens : Option Int
  output_tokens : Option Int
deriving DecidableEq

/-- An Anthropic-shaped inbound response body. -/
structure AnthropicResponse where
  id : Option String
  model : Option String
  content : Option (List AnthropicContentPart)
  stop_reason : Option String
  usage : Option AnthropicUsage
deriving DecidableEq

/-- One part of a Gemini-shaped response candidate's content. -/
structure GeminiRespPart where
  text : Option String
deriving DecidableEq

/-- The content of a Gemini-shaped response candidate. -/
structure GeminiRespContent where
  parts : Option (List GeminiRespPart)
  role : Option String
deriving DecidableEq

/-- One Gemini-shaped response candidate. -/
structure GeminiCandidate where
  content : Option GeminiRespContent
  finishReason : Option String
deriving DecidableEq

/-- A Gemini-shaped inbound response body. -/
structure GeminiResponse where
  candidates : Option (List GeminiCandidate)
deriving DecidableEq

/-- An inbound vendor response tagged with its source format. -/
inductive VendorResponse where
  | openai (r : StdResponse)
  | anthropic (r : AnthropicResponse)
  | gemini (r : GeminiResponse)
deriving DecidableEq

/-- `responseToStandardFormat(response, sourceFormat)`: convert a completed
vendor response to the standard response.  `now` models `Date.now()` (both
the `created` timestamp and the synthesized Gemini id). -/
def responseToStandardFormat (now : Int) : VendorResponse → StdResponse
  | .openai response => response
  | .anthropic response =>
    let msg : StdMessage :=
      { role := "assistant",
        content := jsOrString ((response.content.bind List.head?).bind (·.text)) "" }
    let choice : StdChoice :=
      { index := 0, message := msg,
        finish_reason := some (jsOrString response.stop_reason "stop") }
    let usage : Usage :=
      { prompt_tokens := jsOrInt (response.usage.bind (·.input_tokens)) 0,
        completion_tokens := jsOrInt (response.usage.bind (·.output_tokens)) 0,
        total_tokens := jsOrInt (response.usage.bind (·.input_tokens)) 0 +
          jsOrInt (response.usage.bind (·.output_tokens)) 0 }
    { id := jsOrString response.id "", object := "chat.completion", created := now,
      model := jsOrString response.model "", choices := [choice], usage := usage }
  | .gemini response =>
    let choices : List StdChoice :=
      match response.candidates with
      | some (candidate :: _) =>
        let msg : StdMessage :=
          { role := "assistant",
            content := jsOrString
              (((candidate.content.bind (·.parts)).bind List.head?).bind (·.text)) "" }
        [{ index := 0, message := msg,
           finish_reason := some (jsOrString (candidate.finishReason.map lowerString)
             "stop") }]
      | _ => []
    { id := "gemini-" ++ toString now, object := "chat.completion", created := now,
      model := "gemini", choices := choices,
      usage := { prompt_tokens := 0, completion_tokens := 0, total_tokens := 0 } }

/-- An emitted Anthropic-shaped usage record. -/
structure AnthropicUsageOut where
  input_tokens : Int
  output_tokens : Int
deriving DecidableEq

/-- One emitted Anthropic-shaped content part. -/
structure AnthropicContentPartOut where
  type : String
  text : String
deriving DecidableEq

/-- An emitted Anthropic-shaped response body. -/
structure AnthropicResponseOut where
  id : String
  type : String
  role : String
  content : List AnthropicContentPartOut
  model : String
  stop_reason : String
  usage : AnthropicUsageOut
deriving DecidableEq

/-- One part of an emitted Gemini-shaped candidate content. -/
structure GeminiRespPartOut where
  text : String
deriving DecidableEq

/-- The content of an emitted Gemini-shaped candidate. -/
structure GeminiRespContentOut where
  parts : List GeminiRespPartOut
  role : String
deriving DecidableEq

/-- One emitted Gemini-shaped response candidate. -/
structure GeminiCandidateOut where
  content : GeminiRespContentOut
  finishReason : String
  index : Int
deriving DecidableEq

/-- An emitted Gemini-shaped response body. -/
structure GeminiResponseOut where
  candidates : List GeminiCandidateOut
deriving DecidableEq

/-- An emitted vendor response. -/
inductive VendorResponseOut where
  | std (r : StdResponse)
  | anthropic (r : AnthropicResponseOut)
  | gemini (r : GeminiResponseOut)
deriving DecidableEq

/-- `responseFromStandardFormat(standard, targetFormat)`: convert a standard
response to the target protocol's response shape. -/
def responseFromStandardFormat (standard : StdResponse) (targetFormat : String) :
    VendorResponseOut :=
  if targetFormat = "openai" ∨ targetFormat = "openrouter" then .std standard
  else if targetFormat = "anthropic" then
    let choice := standard.choices.head?
    let part : AnthropicContentPartOut :=
      { type := "text", text := jsOrString (choice.map (·.message.content)) "" }
    let usage : AnthropicUsageOut :=
      { input_tokens := standard.usage.prompt_tokens,
        output_tokens := standard.usage.completion_tokens }
    .anthropic
      { id := standard.id, type := "message", role := "assistant", content := [part],
        model := standard.model,
        stop_reason := jsOrString (choice.bind (·.finish_reason)) "end_turn",
        usage := usage }
  else if targetFormat = "gemini" then
    let geminiChoice := standard.choices.head?
    let content : GeminiRespContentOut :=
      { parts := [{ text := jsOrString (geminiChoice.map (·.message.content)) "" }],
        role := "model" }
    let candidate : GeminiCandidateOut :=
      { content := content,
        finishReason := jsOrString ((geminiChoice.bind (·.finish_reason)).map upperString)
          "STOP",
        index := 0 }
    .gemini { candidates := [candidate] }
  else .std standard

/-- Projection used to state facts about Anthropic-shaped emitted responses. -/
def getAnthropicRespOut : VendorResponseOut → AnthropicResponseOut
  | .anthropic r => r
  | _ => { id := "", type := "", role := "", content := [], model := "", stop_reason := "",
           usage := { input_tokens := 0, output_tokens := 0 } }

/-- Projection used to state facts about Gemini-shaped emitted responses. -/
def getGeminiRespOut : VendorResponseOut → GeminiResponseOut
  | .gemini r => r
  | _ => { candidates := [] }

/-- C4 (amended): the usage invariant holds per source adapter — the
Anthropic-shaped adapter always computes `total = prompt + completion`, the
Gemini-shaped adapter always reports all-zero usage, and the OpenAI-shaped
adapter passes the vendor response through unchanged (so its usage holds the
invariant only if the vendor's own usage already does). -/
theorem c4_usage_invariant_by_source :
    (∀ (now : Int) (r : AnthropicResponse),
      (responseToStandardFormat now (.anthropic r)).usage.total_tokens =
        (responseToStandardFormat now (.anthropic r)).usage.prompt_tokens +
          (responseToStandardFormat now (.anthropic r)).usage.completion_tokens) ∧
    (∀ (now : Int) (g : GeminiResponse),
      (responseToStandardFormat now (.gemini g)).usage =
        { prompt_tokens := 0, completion_tokens := 0, total_tokens := 0 }) ∧
    (∀ (now : Int) (s : StdResponse), responseToStandardFormat now (.openai s) = s) :=
  ⟨fun _ _ => rfl, fun _ _ => rfl, fun _ _ => rfl⟩

/-- The inconsistent OpenAI-shaped response of the C4 counterexample. -/
def c4BadUsageResponse : StdResponse :=
  { id := "r", object := "chat.completion", created := 0, model := "m", choices := [],
    usage := { prompt_tokens := 1, completion_tokens := 1, total_tokens := 5 } }

/-- C4 counterexample: for an OpenAI-shaped source the adapter is the
identity, so a vendor response reporting `total_tokens = 5` with
`prompt_tokens = completion_tokens = 1` reaches the IR violating
`total = prompt + completion`. -/
theorem c4_counterexample :
    (responseToStandardFormat 0 (.openai c4BadUsageResponse)).usage.total_tokens ≠
      (responseToStandardFormat 0 (.openai c4BadUsageResponse)).usage.prompt_tokens +
        (responseToStandardFormat 0 (.openai c4BadUsageResponse)).usage.completion_tokens := by
  decide

/-- The Anthropic-shaped body expected for an IR response with no choices. -/
def emptyChoicesAnthropic (standard : StdResponse) : AnthropicResponseOut :=
  let usage : AnthropicUsageOut :=
    { input_tokens := standard.usage.prompt_tokens,
      output_tokens := standard.usage.completion_tokens }
  { id := standard.id, type := "message", role := "assistant",
    content := [{ type := "text", text := "" }], model := standard.model,
    stop_reason := "end_turn", usage := usage }

/-- The Gemini-shaped body expected for an IR response with no choices. -/
def emptyChoicesGemini : GeminiResponseOut :=
  let candidate : GeminiCandidateOut :=
    { content := { parts := [{ text := "" }], role := "model" },
      finishReason := "STOP", index := 0 }
  { candidates := [candidate] }

/-- C10: converting an IR response with an empty `choices` sequence to the
Anthropic- or Gemini-shaped format succeeds and produces a well-formed
response whose message text is empty and whose finish reason is the
per-protocol default (`"end_turn"` / `"STOP"`). -/
theorem c10_empty_choices_defaults (standard : StdResponse)
    (h : standard.choices = []) :
    responseFromStandardFormat standard "anthropic" =
      .anthropic (emptyChoicesAnthropic standard) ∧
    responseFromStandardFormat standard "gemini" = .gemini emptyChoicesGemini := by
  constructor <;>
    simp [responseFromStandardFormat, h, jsOrString, emptyChoicesAnthropic, emptyChoicesGemini]

theorem c10_witness :
    responseFromStandardFormat c4BadUsageResponse "anthropic" =
      .anthropic (emptyChoicesAnthropic c4BadUsageResponse) ∧
    responseFromStandardFormat c4BadUsageResponse "gemini" = .gemini emptyChoicesGemini :=
  c10_empty_choices_defaults c4BadUsageResponse rfl

/-- C9 (amended): the Anthropic-shaped response adapter's finish-reason
defaults are asymmetric — a missing (or empty, hence falsy) `stop_reason`
becomes `"stop"` on the way into the IR, a missing (or empty) IR
`finish_reason` becomes `"end_turn"` on the way out — and a present
non-empty value is copied through unchanged in both directions. -/
theorem c9_finish_reason_defaults :
    (∀ (now : Int) (r : AnthropicResponse), r.stop_reason = none →
      (responseToStandardFormat now (.anthropic r)).choices.map (·.finish_reason) =
        [some "stop"]) ∧
    (∀ (now : Int) (r : AnthropicResponse) (s : String), r.stop_reason = some s → s ≠ "" →
      (responseToStandardFormat now (.anthropic r)).choices.map (·.finish_reason) =
        [some s]) ∧
    (∀ standard : StdResponse, standard.choices.head?.bind (·.finish_reason) = none →
      (getAnthropicRespOut (responseFromStandardFormat standard "anthropic")).stop_reason =
        "end_turn") ∧
    (∀ (standard : StdResponse) (s : String),
      standard.choices.head?.bind (·.finish_reason) = some s → s ≠ "" →
      (getAnthropicRespOut (responseFromStandardFormat standard "anthropic")).stop_reason =
        s) := by
  refine ⟨?_, ?_, ?_, ?_⟩
  · intro now r h
    simp [responseToStandardFormat, jsOrString, h]
  · intro now r s h hs
    simp [responseToStandardFormat, jsOrString, h, hs]
  · intro standard h
    simp [responseFromStandardFormat, getAnthropicRespOut, jsOrString, h]
  · intro standard s h hs
    simp [responseFromStandardFormat, getAnthropicRespOut, jsOrString, h, hs]

/-- The Anthropic-shaped response of the C9 counterexample, carrying a
present but empty `stop_reason`. -/
def c9EmptyStopResponse : AnthropicResponse :=
  { id := some "msg", model := some "m",
    content := some [{ type := some "text", text := some "hi" }],
    stop_reason := some "", usage := none }

/-- The IR response of the C9 counterexample, carrying a present but empty
`finish_reason`. -/
def c9EmptyFinishStd : StdResponse :=
  let choice : StdChoice :=
    { index := 0, message := { role := "assistant", content := "hi" },
      finish_reason := some "" }
  { id := "i", object := "chat.completion", created := 0, model := "m",
    choices := [choice],
    usage := { prompt_tokens := 0, completion_tokens := 0, total_tokens := 0 } }

/-- C9 counterexample: a present empty-string value is NOT copied through
unchanged in either direction — `stop_reason: ""` becomes `"stop"` in the
IR, and `finish_reason: ""` becomes `"end_turn"` on emission (JavaScript
`||` treats the empty string as missing). -/
theorem c9_counterexample :
    (responseToStandardFormat 0 (.anthropic c9EmptyStopResponse)).choices.map
        (·.finish_reason) = [some "stop"] ∧
    (some "stop" : Option String) ≠ some "" ∧
    (getAnthropicRespOut (responseFromStandardFormat c9EmptyFinishStd "anthropic")).stop_reason =
      "end_turn" ∧
    ("end_turn" : String) ≠ "" := by
  exact ⟨rfl, by decide, rfl, by decide⟩

/-- An Anthropic-shaped response with every field absent, used by the C9
witness. -/
def emptyAnthropicResponse : AnthropicResponse :=
  { id := none, model := none, content := none, stop_reason := none, usage := none }

theorem c9_witness :
    (responseToStandardFormat 0 (.anthropic emptyAnthropicResponse)).choices.map
        (·.finish_reason) = [some "stop"] ∧
    (getAnthropicRespOut (responseFromStandardFormat c4BadUsageResponse "anthropic")).stop_reason =
      "end_turn" :=
  ⟨(c9_finish_reason_defaults).1 0 emptyAnthropicResponse rfl,
   (c9_finish_reason_defaults).2.2.1 c4BadUsageResponse rfl⟩

/-- The Anthropic-shaped request emitted before any system handling. -/
def anthropicRequestBase (standard : StdRequest) : AnthropicRequestOut :=
  { model := standard.model, messages := standard.messages,
    max_tokens := standard.max_tokens, temperature := standard.temperature,
    stream := standard.stream, system := none }

/-- C2 (amended): converting an IR request to the Anthropic-shaped format,
if the IR `system` is set to a truthy value (a non-empty string or a parts
array) it is emitted as the top-level field and the messages are unchanged;
otherwise the content of the FIRST role=system message is promoted to the
top-level `system` field and EVERY role=system message is removed from the
emitted sequence (all other messages preserved in order); with no system
message at all, the messages are unchanged and no `system` is emitted. -/
theorem c2_system_hoisting (standard : StdRequest) (beta platform : Option String) :
    (contentTruthy standard.system = true →
      fromStandardFormat standard "anthropic" beta platform =
        .anthropic { anthropicRequestBase standard with system := standard.system }) ∧
    (contentTruthy standard.system = false →
      ∀ m, standard.messages.find? (fun msg => msg.role = "system") = some m →
        fromStandardFormat standard "anthropic" beta platform =
          .anthropic
            { model := standard.model,
              messages := standard.messages.filter (fun msg => msg.role ≠ "system"),
              max_tokens := standard.max_tokens, temperature := standard.temperature,
              stream := standard.stream, system := some m.content }) ∧
    (contentTruthy standard.system = false →
      standard.messages.find? (fun msg => msg.role = "system") = none →
      fromStandardFormat standard "anthropic" beta platform =
        .anthropic (anthropicRequestBase standard)) := by
  refine ⟨?_, ?_, ?_⟩
  · intro h
    simp [fromStandardFormat, anthropicRequestBase, h]
  · intro h m hm
    simp [fromStandardFormat, anthropicRequestBase, h, hm]
  · intro h hm
    simp [fromStandardFormat, anthropicRequestBase, h, hm]

/-- The two-system-message request of the C2 counterexample. -/
def c2TwoSystemRequest : StdRequest :=
  { model := "m",
    messages := [{ role := "system", content := .str "a" },
                 { role := "user", content := .str "u" },
                 { role := "system", content := .str "b" }],
    max_tokens := 100, temperature := 1, stream := false, system := none }

/-- A request whose IR `system` is set (to the empty string) — set but
falsy. -/
def c2EmptySystemRequest : StdRequest :=
  { model := "m", messages := [{ role := "system", content := .str "a" }],
    max_tokens := 100, temperature := 1, stream := false, system := some (.str "") }

/-- C2 counterexample: (i) with two role=system messages, the adapter
removes BOTH from the emitted sequence (the claim predicts the later one is
preserved); (ii) with IR `system` set to the empty string, the adapter still
scans and strips the messages (the claim predicts set system means messages
unchanged). -/
theorem c2_counterexample :
    fromStandardFormat c2TwoSystemRequest "anthropic" none none =
      .anthropic
        { model := "m", messages := [{ role := "user", content := .str "u" }],
          max_tokens := 100, temperature := 1, stream := false,
          system := some (.str "a") } ∧
    ([{ role := "user", content := .str "u" }] : List ChatMessage) ≠
      [{ role := "user", content := .str "u" }, { role := "system", content := .str "b" }] ∧
    fromStandardFormat c2EmptySystemRequest "anthropic" none none =
      .anthropic
        { model := "m", messages := [], max_tokens := 100, temperature := 1,
          stream := false, system := some (.str "a") } := by
  refine ⟨?_, by decide, ?_⟩ <;> rfl

/-- The request of the C2 witness: IR `system` set to a non-empty string. -/
def c2WitnessRequest : StdRequest :=
  { model := "m", messages := [{ role := "user", content := .str "u" }],
    max_tokens := 100, temperature := 1, stream := false,
    system := some (.str "You are helpful.") }

theorem c2_witness :
    fromStandardFormat c2WitnessRequest "anthropic" none none =
      .anthropic
        { model := "m", messages := [{ role := "user", content := .str "u" }],
          max_tokens := 100, temperature := 1, stream := false,
          system := some (.str "You are helpful.") } :=
  (c2_system_hoisting c2WitnessRequest none none).1 rfl

/-- Re-parse of an emitted OpenAI-shaped body as an inbound request (the
wire carries every field explicitly). -/
def wireOpenAI (r : OpenAIRequestOut) : OpenAIRequest :=
  { model := some r.model, messages := some r.messages, max_tokens := some r.max_tokens,
    temperature := some r.temperature, stream := some r.stream }

/-- Projection used to state facts about OpenAI-shaped emitted requests. -/
def getOpenAIRequestOut : VendorRequestOut → OpenAIRequestOut
  | .openai r => r
  | _ => { model := "", messages := [], max_tokens := 0, temperature := 0, stream := false }

/-- `to_ir(from_ir(r, openai), openai)`: emit the IR request in the OpenAI
wire shape (no platform post-processing) and convert it back to the IR. -/
def roundtripOpenAI (r : StdRequest) : StdRequest :=
  toStandardFormat (.openai (wireOpenAI (getOpenAIRequestOut
    (fromStandardFormat r "openai" none none))))

/-- C5 (amended): the OpenAI round-trip is the identity on every IR request
the OpenAI wire shape represents losslessly — `system` unset (the emitted
shape has no top-level system field) — provided additionally that
`max_tokens` and `temperature` are non-zero, since the re-import applies the
JavaScript `||` defaults, which replace a zero value by 2048 and 0.7. -/
theorem c5_openai_roundtrip (r : StdRequest) (hsys : r.system = none)
    (hmax : r.max_tokens ≠ 0) (htemp : r.temperature ≠ 0) :
    roundtripOpenAI r = r := by
  obtain ⟨model, messages, max_tokens, temperature, stream, system⟩ := r
  simp only at hsys hmax htemp
  subst hsys
  simp [roundtripOpenAI, fromStandardFormat, wireOpenAI, getOpenAIRequestOut,
    toStandardFormat, jsOrString, jsOrInt, jsOrRat, hmax, htemp]
  intro hm
  exact hm.symm

/-- The IR request of the C5 counterexample: representable in the OpenAI
wire shape (no system field), but with `max_tokens = 0`. -/
def c5ZeroMaxTokens : StdRequest :=
  { model := "m", messages := [], max_tokens := 0, temperature := 0.7, stream := false,
    system := none }

/-- C5 counterexample: the round-trip is NOT the identity on every losslessly
representable request — `max_tokens: 0` survives emission but the re-import's
`request.max_tokens || 2048` default turns it into 2048. -/
theorem c5_counterexample :
    c5ZeroMaxTokens.system = none ∧
    (roundtripOpenAI c5ZeroMaxTokens).max_tokens = 2048 ∧
    c5ZeroMaxTokens.max_tokens = 0 ∧
    roundtripOpenAI c5ZeroMaxTokens ≠ c5ZeroMaxTokens := by
  refine ⟨rfl, rfl, rfl, fun h => ?_⟩
  have h2 := congrArg StdRequest.max_tokens h
  rw [show (roundtripOpenAI c5ZeroMaxTokens).max_tokens = 2048 from rfl] at h2
  simp [c5ZeroMaxTokens] at h2

/-- The request of the C5 witness. -/
def c5WitnessRequest : StdRequest :=
  { model := "gpt-4", messages := [{ role := "user", content := .str "Hello" }],
    max_tokens := 1000, temperature := 0.7, stream := false, system := none }

theorem c5_witness : roundtripOpenAI c5WitnessRequest = c5WitnessRequest :=
  c5_openai_roundtrip c5WitnessRequest rfl (by norm_num [c5WitnessRequest])
    (by norm_num [c5WitnessRequest])

/-- Whether any content part of a single message carries a `cache_control`
annotation. -/
def msgHasCacheControl (m : ChatMessage) : Bool :=
  match m.content with
  | .str _ => false
  | .parts ps => ps.any fun p => p.cache_control.isSome

/-- Whether any content part of any message carries `cache_control`. -/
def messagesHaveCacheControl (ms : List ChatMessage) : Bool :=
  ms.any msgHasCacheControl

/-- The messages of an emitted request (the OpenAI-shaped case). -/
def outMessagesOpenAI : VendorRequestOut → List ChatMessage
  | .openai r => r.messages
  | .anthropic r => r.messages
  | .gemini _ => []
  | .std r => r.messages

/-- The reinsertion succeeds on a message exactly when its content is a bare
string or its content array ends in a text part. -/
def lastPartIsText (m : ChatMessage) : Bool :=
  match m.content with
  | .str _ => true
  | .parts ps =>
    match ps.getLast? with
    | some p => p.type = "text"
    | none => false

theorem removeCacheControl_clean (ms : List ChatMessage) :
    messagesHaveCacheControl (removeCacheControlFromMessages ms) = false := by
  rw [messagesHaveCacheControl, List.any_eq_false]
  intro m hm
  unfold removeCacheControlFromMessages at hm
  split at hm
  · next h => rw [h] at hm; simp at hm
  · rw [List.mem_map] at hm
    obtain ⟨m0, _, rfl⟩ := hm
    cases hc : m0.content with
    | str s => simp [msgHasCacheControl, hc]
    | parts ps =>
      simp [msgHasCacheControl, hc, List.any_map, Function.comp]

theorem addCacheControlFromEnd_no_user (ms : List ChatMessage)
    (h : ∀ m ∈ ms, m.role ≠ "user") : addCacheControlFromEnd ms = ms := by
  induction ms with
  | nil => rfl
  | cons m rest ih =>
    rw [addCacheControlFromEnd, if_neg (by simpa using h m (by simp)),
      ih (fun x hx => h x (by simp [hx]))]

theorem addCacheControlFromEnd_found (u : ChatMessage) (hu : u.role = "user") :
    ∀ (xs ys : List ChatMessage), (∀ m ∈ xs, m.role ≠ "user") →
      addCacheControlFromEnd (xs ++ u :: ys) =
        xs ++ addCacheControlToUserMessage u :: ys
  | [], ys, _ => by rw [List.nil_append, addCacheControlFromEnd, if_pos hu, List.nil_append]
  | x :: xs, ys, h => by
    rw [List.cons_append, addCacheControlFromEnd, if_neg (by simpa using h x (by simp)),
      addCacheControlFromEnd_found u hu xs ys (fun m hm => h m (by simp [hm])),
      List.cons_append]

theorem addCacheControl_places_on_last_user (pre : List ChatMessage) (u : ChatMessage)
    (post : List ChatMessage) (hu : u.role = "user")
    (hpost : ∀ m ∈ post, m.role ≠ "user") :
    addCacheControlToMessages (pre ++ u :: post) =
      pre ++ addCacheControlToUserMessage u :: post := by
  unfold addCacheControlToMessages
  rw [if_neg (by simp)]
  have hrev : (pre ++ u :: post).reverse = post.reverse ++ u :: pre.reverse := by simp
  rw [hrev, addCacheControlFromEnd_found u hu post.reverse pre.reverse
    (fun m hm => hpost m (by simpa using hm))]
  simp

theorem addCacheControl_no_user (ms : List ChatMessage)
    (h : ∀ m ∈ ms, m.role ≠ "user") : addCacheControlToMessages ms = ms := by
  unfold addCacheControlToMessages
  split
  · rfl
  · rw [addCacheControlFromEnd_no_user ms.reverse (fun m hm => h m (by simpa using hm)),
      List.reverse_reverse]

theorem addCacheControl_user_msg_cc (u : ChatMessage)
    (hclean : msgHasCacheControl u = false) :
    msgHasCacheControl (addCacheControlToUserMessage u) = lastPartIsText u := by
  cases hc : u.content with
  | str s =>
    simp [addCacheControlToUserMessage, msgHasCacheControl, lastPartIsText, hc]
  | parts ps =>
    have hclean2 : ps.any (fun p => p.cache_control.isSome) = false := by
      simpa [msgHasCacheControl, hc] using hclean
    cases hl : ps.getLast? with
    | none =>
      have hps : ps = [] := by
        cases ps with
        | nil => rfl
        | cons q qs => simp [List.getLast?_concat, List.getLast?_eq_getLast] at hl
      subst hps
      simp [addCacheControlToUserMessage, msgHasCacheControl, lastPartIsText, hc]
    | some p =>
      by_cases ht : p.type = "text"
      · simp [addCacheControlToUserMessage, msgHasCacheControl, lastPartIsText, hc, hl, ht,
          List.any_append]
      · simp [addCacheControlToUserMessage, msgHasCacheControl, lastPartIsText, hc, hl, ht,
          hclean2]

/-- C3 (amended): for an OpenRouter-platform target, `cache_control` can be
present in the emitted messages ONLY when both the prompt-caching opt-in
signal and a Claude-family model are present (for every other combination
nothing carries the annotation, all inbound annotations having been
stripped); when both hold, the output is exactly strip-then-reinsert, an
annotation IS present whenever the stripped messages end (in user-role
position) with a suitable message, and the reinsertion touches only the
last user-role message — converting bare string content to a one-part text
array, annotating an array content's final part only when that part is a
text part — and does nothing when no user-role message exists. -/
theorem c3_cache_control_conditions (standard : StdRequest) (anthropicBeta : Option String)
    (targetFormat : String) (htf : targetFormat = "openai" ∨ targetFormat = "openrouter") :
    (¬ (betaIncludesPromptCaching anthropicBeta = true ∧
        isClaudeModel standard.model = true) →
      messagesHaveCacheControl (outMessagesOpenAI
        (fromStandardFormat standard targetFormat anthropicBeta (some "openrouter"))) =
        false) ∧
    (betaIncludesPromptCaching anthropicBeta = true → isClaudeModel standard.model = true →
      outMessagesOpenAI (fromStandardFormat standard targetFormat anthropicBeta
        (some "openrouter")) =
        addCacheControlToMessages (removeCacheControlFromMessages standard.messages)) ∧
    (betaIncludesPromptCaching anthropicBeta = true → isClaudeModel standard.model = true →
      ∀ (pre : List ChatMessage) (u : ChatMessage) (post : List ChatMessage),
        removeCacheControlFromMessages standard.messages = pre ++ u :: post →
        u.role = "user" → (∀ m ∈ post, m.role ≠ "user") → lastPartIsText u = true →
        messagesHaveCacheControl (outMessagesOpenAI (fromStandardFormat standard targetFormat
          anthropicBeta (some "openrouter"))) = true) ∧
    (∀ (pre : List ChatMessage) (u : ChatMessage) (post : List ChatMessage),
      u.role = "user" → (∀ m ∈ post, m.role ≠ "user") →
      addCacheControlToMessages (pre ++ u :: post) =
        pre ++ addCacheControlToUserMessage u :: post) ∧
    (∀ ms : List ChatMessage, (∀ m ∈ ms, m.role ≠ "user") →
      addCacheControlToMessages ms = ms) ∧
    (∀ u : ChatMessage, msgHasCacheControl u = false →
      msgHasCacheControl (addCacheControlToUserMessage u) = lastPartIsText u) := by
  have houtput : outMessagesOpenAI
      (fromStandardFormat standard targetFormat anthropicBeta (some "openrouter")) =
      (if betaIncludesPromptCaching anthropicBeta && isClaudeModel standard.model then
        addCacheControlToMessages (removeCacheControlFromMessages standard.messages)
      else removeCacheControlFromMessages standard.messages) := by
    rcases htf with h | h <;> subst h <;> simp [fromStandardFormat, outMessagesOpenAI]
  refine ⟨?_, ?_, ?_, addCacheControl_places_on_last_user, addCacheControl_no_user,
    addCacheControl_user_msg_cc⟩
  · intro hnot
    rw [houtput, if_neg (by simp only [Bool.and_eq_true]; exact hnot)]
    exact removeCacheControl_clean standard.messages
  · intro ha hb
    rw [houtput, if_pos (by simp [ha, hb])]
  · intro ha hb pre u post hdec hu hpost hlast
    have hclean : msgHasCacheControl u = false := by
      have h1 := removeCacheControl_clean standard.messages
      rw [messagesHaveCacheControl, List.any_eq_false] at h1
      simpa using h1 u (by rw [hdec]; simp)
    rw [houtput, if_pos (by simp [ha, hb]), hdec,
      addCacheControl_places_on_last_user pre u post hu hpost, messagesHaveCacheControl]
    simp [List.any_append, addCacheControl_user_msg_cc u hclean, hlast]

/-- The C3 counterexample request: Claude-family model, but no user-role
message to reinsert onto. -/
def c3NoUserRequest : StdRequest :=
  { model := "claude-3-sonnet", messages := [{ role := "assistant", content := .str "x" }],
    max_tokens := 100, temperature := 1, stream := false, system := none }

/-- C3 counterexample: with the opt-in signal present and a Claude-family
model — both conditions of the claimed "if and only if" — a request with no
user-role message still emits no `cache_control` annotation anywhere,
refuting the left-to-right direction of the claimed equivalence. -/
theorem c3_counterexample :
    betaIncludesPromptCaching (some "prompt-caching-2024-07-31") = true ∧
    isClaudeModel c3NoUserRequest.model = true ∧
    messagesHaveCacheControl (outMessagesOpenAI (fromStandardFormat c3NoUserRequest "openai"
      (some "prompt-caching-2024-07-31") (some "openrouter"))) = false := by
  exact ⟨by decide, by decide, by decide⟩

/-- The C3 witness request: a non-Claude model with the opt-in signal. -/
def c3WitnessRequest : StdRequest :=
  { model := "gpt-4", messages := [{ role := "user", content := .str "Hello" }],
    max_tokens := 100, temperature := 1, stream := false, system := none }

theorem c3_witness :
    messagesHaveCacheControl (outMessagesOpenAI (fromStandardFormat c3WitnessRequest "openai"
      (some "prompt-caching-2024-07-31") (some "openrouter"))) = false :=
  (c3_cache_control_conditions c3WitnessRequest (some "prompt-caching-2024-07-31") "openai"
    (Or.inl rfl)).1 (by decide)
